import Mathlib

/-!
Verification of the offline-capable request-caching layer of the LogisFit
application (`src/static/sw.js`): the request classifier, the Cache-First and
Network-First strategies, the install/activate lifecycle and the offline
fallback page, embedded shallowly as pure Lean functions over an explicit
cache-store state and an explicit network oracle.
-/

set_option maxRecDepth 4000

namespace SW

/-- A parsed URL, reduced to the two components the service worker inspects:
`url.hostname` and `url.pathname`. The URL also serves as the cache key
(the Cache API keys entries by request URL). -/
structure Url where
  hostname : String
  pathname : String
deriving DecidableEq, Repr

/-- A request as seen by the fetch listener: its method and its URL. -/
structure Request where
  method : String
  url : Url
deriving DecidableEq, Repr

/-- A response snapshot: status code, body bytes and headers.
`new Response(body, init)` with no explicit status yields status 200. -/
structure Response where
  status : Nat
  body : String
  headers : List (String × String)
deriving DecidableEq, Repr

/-- `response.ok`: the status is in the successful range 200..299. -/
def Response.ok (r : Response) : Bool :=
  decide (200 ≤ r.status) && decide (r.status ≤ 299)

/-- `startsL s p` is true when the character list `p` is an initial segment of
`s`; the list-level engine behind `String.prototype.startsWith`. -/
def startsL : List Char → List Char → Bool
  | _, [] => true
  | [], _ :: _ => false
  | a :: as, b :: bs => a == b && startsL as bs

/-- `hasSub s p` is true when `p` occurs contiguously inside `s`; the
list-level engine behind `String.prototype.includes`. -/
def hasSub : List Char → List Char → Bool
  | [], p => p.isEmpty
  | s@(_ :: rest), p => startsL s p || hasSub rest p

/-- `String.prototype.startsWith`. -/
def strStarts (s p : String) : Bool := startsL s.toList p.toList

/-- `String.prototype.includes` (substring containment). -/
def strIncludes (s p : String) : Bool := hasSub s.toList p.toList

/-- `CACHE_NAME = 'logisfit-v1'`: the tag of the current cache generation. -/
def CACHE_NAME : String := "logisfit-v1"

/-- `PRECACHE_URLS`: the precache manifest (application-shell paths). -/
def PRECACHE_URLS : List String :=
  ["/", "/static/css/style.css", "/static/js/main.js",
   "/static/images/logo.png", "/static/images/favicon.ico"]

/-- `CDN_HOSTS`: the allowlist of third-party asset hostnames. -/
def CDN_HOSTS : List String :=
  ["cdn.jsdelivr.net", "fonts.googleapis.com", "fonts.gstatic.com"]

/-- One cache generation: an association list from request URL to the stored
response snapshot. -/
abbrev Cache := List (Url × Response)

/-- The whole Cache Store: named generations in creation order. -/
abbrev CacheStore := List (String × Cache)

/-- The network oracle: `some r` means the fetch resolves with response `r`;
`none` means the fetch rejects (network unreachable / request rejected). -/
abbrev Net := Request → Option Response

/-- Lookup of a URL inside one generation. -/
def cacheLookup : Cache → Url → Option Response
  | [], _ => none
  | (k, v) :: rest, u => if k = u then some v else cacheLookup rest u

/-- `cache.put`: store a snapshot under a URL, overwriting any existing entry
for the same URL. -/
def cacheInsert : Cache → Url → Response → Cache
  | [], u, r => [(u, r)]
  | (k, v) :: rest, u, r =>
    if k = u then (u, r) :: rest else (k, v) :: cacheInsert rest u r

/-- `caches.match(request)`: search every generation in order for the URL. -/
def storeMatch : CacheStore → Url → Option Response
  | [], _ => none
  | (_, c) :: rest, u =>
    match cacheLookup c u with
    | some r => some r
    | none => storeMatch rest u

/-- `caches.open(name)` followed by `cache.put(u, r)`: write into the named
generation, creating it when absent. -/
def storePut : CacheStore → String → Url → Response → CacheStore
  | [], name, u, r => [(name, [(u, r)])]
  | (n, c) :: rest, name, u, r =>
    if n = name then (n, cacheInsert c u r) :: rest
    else (n, c) :: storePut rest name u r

/-- Lookup of a URL inside the generation with the given name. -/
def genLookup : CacheStore → String → Url → Option Response
  | [], _, _ => none
  | (n, c) :: rest, name, u =>
    if n = name then cacheLookup c u else genLookup rest name u

/-- The outcome of handling one fetch event: the response delivered to the
page (`none` when the underlying fetch rejected and nothing intercepted it),
the cache store after the handler ran, and the list of network requests the
handling issued. -/
structure HandleResult where
  response : Option Response
  store : CacheStore
  netCalls : List Request
deriving DecidableEq, Repr

/-- The four handling categories the fetch listener dispatches between. -/
inductive Category
  | nonCacheable
  | thirdPartyAsset
  | staticAsset
  | navigational
deriving DecidableEq, Repr

/-- The Request Classifier: the dispatch cascade of the fetch listener.
Checks, in order: non-GET method, `/api/` path prefix, CDN hostname
allowlist (substring match, `url.hostname.includes(host)`), `/static/`
path prefix; everything else is navigational. First match wins. -/
def classify (req : Request) : Category :=
  if req.method != "GET" then .nonCacheable
  else if strStarts req.url.pathname "/api/" then .nonCacheable
  else if CDN_HOSTS.any (fun host => strIncludes req.url.hostname host) then .thirdPartyAsset
  else if strStarts req.url.pathname "/static/" then .staticAsset
  else .navigational

/-- The synthesized offline fallback page built in `networkFirst`'s catch
branch: `new Response(html, \x7b headers: \x7b Content-Type ... \x7d \x7d)`,
status defaulting to 200. -/
def offlineResponse : Response :=
  { status := 200
    body := "<!DOCTYPE html><html><head><meta charset=\"UTF-8\"><meta name=\"viewport\" content=\"width=device-width,initial-scale=1\"><title>오프라인 - LogisFit</title><style>body\x7bfont-family:\"Noto Sans KR\",sans-serif;display:flex;justify-content:center;align-items:center;min-height:100vh;margin:0;background:#f8f9fa;color:#333\x7d.offline\x7btext-align:center;padding:2rem\x7d.offline h1\x7bfont-size:1.5rem;margin-bottom:1rem\x7d.offline p\x7bcolor:#666\x7d</style></head><body><div class=\"offline\"><h1>오프라인 상태입니다</h1><p>인터넷 연결을 확인하고 다시 시도해주세요.</p><button onclick=\"location.reload()\" style=\"margin-top:1rem;padding:0.5rem 1.5rem;border:none;background:#0d6efd;color:#fff;border-radius:6px;cursor:pointer\">새로고침</button></div></body></html>"
    headers := [("Content-Type", "text/html; charset=UTF-8")] }

/-- The minimal synthetic failure response of `cacheFirst`'s catch branch:
`new Response('', \x7b status: 503 \x7d)`. -/
def failureResponse : Response :=
  { status := 503, body := "", headers := [] }

/-- `cacheFirst(request)`: serve from the cache when present; otherwise fetch
live, store a clone when the response is ok, and return it; when the fetch
rejects, return the minimal 503 response. -/
def cacheFirst (net : Net) (store : CacheStore) (req : Request) : HandleResult :=
  match storeMatch store req.url with
  | some cached => ⟨some cached, store, []⟩
  | none =>
    match net req with
    | some response =>
      if response.ok then
        ⟨some response, storePut store CACHE_NAME req.url response, [req]⟩
      else
        ⟨some response, store, [req]⟩
    | none => ⟨some failureResponse, store, [req]⟩

/-- `networkFirst(request)`: fetch live first; store a clone when the response
is ok and return the live response; when the fetch rejects, fall back to the
cache, and failing that return the synthesized offline page. -/
def networkFirst (net : Net) (store : CacheStore) (req : Request) : HandleResult :=
  match net req with
  | some response =>
    if response.ok then
      ⟨some response, storePut store CACHE_NAME req.url response, [req]⟩
    else
      ⟨some response, store, [req]⟩
  | none =>
    match storeMatch store req.url with
    | some cached => ⟨some cached, store, [req]⟩
    | none => ⟨some offlineResponse, store, [req]⟩

/-- A non-cacheable request is not intercepted (`return` before
`respondWith`): the browser performs the one default network fetch and the
page sees its outcome directly; the cache store is untouched. -/
def passThrough (net : Net) (store : CacheStore) (req : Request) : HandleResult :=
  ⟨net req, store, [req]⟩

/-- The fetch event listener: classify the request and dispatch to the
matching strategy. -/
def handle (net : Net) (store : CacheStore) (req : Request) : HandleResult :=
  match classify req with
  | .nonCacheable => passThrough net store req
  | .thirdPartyAsset => cacheFirst net store req
  | .staticAsset => cacheFirst net store req
  | .navigational => networkFirst net store req

/-- The GET request the install step issues for one manifest path. -/
def precacheReq (origin : String) (path : String) : Request :=
  { method := "GET", url := { hostname := origin, pathname := path } }

/-- The fetching half of `cache.addAll(urls)`: fetch every manifest path; the
batch succeeds only when every fetch resolves with an ok response, otherwise
the whole `addAll` rejects and nothing at all is stored (`addAll` is atomic).
-/
def fetchAll (net : Net) (origin : String) : List String → Option (List (String × Response))
  | [] => some []
  | p :: ps =>
    match net (precacheReq origin p) with
    | some r =>
      if r.ok then (fetchAll net origin ps).map (fun l => (p, r) :: l)
      else none
    | none => none

/-- `cache.addAll(PRECACHE_URLS)`: `Except.error` models the rejected promise
when any manifest resource is unreachable or non-ok. -/
def addAll (net : Net) (origin : String) : Except Unit (List (String × Response)) :=
  match fetchAll net origin PRECACHE_URLS with
  | some entries => Except.ok entries
  | none => Except.error ()

/-- The cache store after the install handler's `waitUntil` chain: on `addAll`
success the fetched entries are written into `CACHE_NAME`; a rejection is
caught (`console.warn`) and swallowed, leaving the store unchanged. -/
def installData (net : Net) (origin : String) (store : CacheStore) : CacheStore :=
  match addAll net origin with
  | Except.ok entries =>
    entries.foldl
      (fun s pr => storePut s CACHE_NAME { hostname := origin, pathname := pr.1 } pr.2)
      store
  | Except.error _ => store

/-- The install event as a fallible step: because the `catch` inside the
`waitUntil` chain swallows every `addAll` rejection, the event always
completes, delivering `installData`. -/
def installEvent (net : Net) (origin : String) (store : CacheStore) :
    Except Unit CacheStore :=
  Except.ok (installData net origin store)

/-- The activate handler: delete every generation whose name differs from
`CACHE_NAME`. -/
def activate (store : CacheStore) : CacheStore :=
  store.filter (fun g => g.1 == CACHE_NAME)

/-- The store invariant of §3: every stored snapshot has a successful
status. -/
def storeOk (s : CacheStore) : Prop :=
  ∀ g ∈ s, ∀ e ∈ g.2, (e.2).ok = true

instance : DecidablePred storeOk := fun _ =>
  inferInstanceAs (Decidable (∀ _ ∈ _, ∀ _ ∈ _, _))

/-! ### Helper lemmas about the store operations -/

theorem cacheLookup_cacheInsert_self (c : Cache) (u : Url) (r : Response) :
    cacheLookup (cacheInsert c u r) u = some r := by
  induction c with
  | nil => simp [cacheInsert, cacheLookup]
  | cons kv rest ih =>
    obtain ⟨k, v⟩ := kv
    by_cases h : k = u <;> simp [cacheInsert, cacheLookup, h, ih]

theorem cacheLookup_cacheInsert_isSome (c : Cache) (u u' : Url) (r : Response)
    (h : (cacheLookup c u).isSome = true) :
    (cacheLookup (cacheInsert c u' r) u).isSome = true := by
  induction c with
  | nil => simp [cacheLookup] at h
  | cons kv rest ih =>
    obtain ⟨k, v⟩ := kv
    by_cases hk : k = u'
    · subst hk
      by_cases hu : k = u
      · simp [cacheInsert, cacheLookup, hu]
      · simp only [cacheLookup, if_neg hu] at h
        simp [cacheInsert, cacheLookup, hu, h]
    · by_cases hu : k = u <;>
        simp_all [cacheInsert, cacheLookup, hk, hu]

theorem genLookup_storePut_self (s : CacheStore) (name : String) (u : Url) (r : Response) :
    genLookup (storePut s name u r) name u = some r := by
  induction s with
  | nil => simp [storePut, genLookup, cacheLookup]
  | cons g rest ih =>
    obtain ⟨n, c⟩ := g
    by_cases h : n = name <;>
      simp [storePut, genLookup, h, ih, cacheLookup_cacheInsert_self]

theorem genLookup_storePut_isSome (s : CacheStore) (name : String) (u u' : Url) (r : Response)
    (h : (genLookup s name u).isSome = true) :
    (genLookup (storePut s name u' r) name u).isSome = true := by
  induction s with
  | nil => simp [genLookup] at h
  | cons g rest ih =>
    obtain ⟨n, c⟩ := g
    by_cases hn : n = name
    · subst hn
      simp only [genLookup, if_pos rfl] at h
      simp [storePut, genLookup, cacheLookup_cacheInsert_isSome _ _ _ _ h]
    · simp only [genLookup, if_neg hn] at h
      simp [storePut, genLookup, hn, ih h]

theorem storeMatch_cons (n : String) (c : Cache) (rest : CacheStore) (u : Url)
    (h : storeMatch ((n, c) :: rest) u = none) :
    cacheLookup c u = none ∧ storeMatch rest u = none := by
  cases hc : cacheLookup c u with
  | some r => simp [storeMatch, hc] at h
  | none =>
    simp only [storeMatch, hc] at h
    exact ⟨rfl, h⟩

theorem storeMatch_storePut_fresh (s : CacheStore) (name : String) (u : Url) (r : Response)
    (h : storeMatch s u = none) :
    storeMatch (storePut s name u r) u = some r := by
  induction s with
  | nil => simp [storePut, storeMatch, cacheLookup]
  | cons g rest ih =>
    obtain ⟨n, c⟩ := g
    obtain ⟨hc, hrest⟩ := storeMatch_cons n c rest u h
    by_cases hn : n = name
    · simp [storePut, hn, storeMatch, cacheLookup_cacheInsert_self]
    · simp [storePut, hn, storeMatch, hc, ih hrest]

theorem entriesOk_cacheInsert (c : Cache) (u : Url) (r : Response)
    (hc : ∀ e ∈ c, (e.2).ok = true) (hr : r.ok = true) :
    ∀ e ∈ cacheInsert c u r, (e.2).ok = true := by
  induction c with
  | nil => simpa [cacheInsert] using hr
  | cons kv rest ih =>
    obtain ⟨k, v⟩ := kv
    by_cases h : k = u
    · intro e he
      simp only [cacheInsert, if_pos h] at he
      rcases List.mem_cons.mp he with h' | h'
      · simpa [h'] using hr
      · exact hc e (List.mem_cons_of_mem _ h')
    · intro e he
      simp only [cacheInsert, if_neg h] at he
      rcases List.mem_cons.mp he with h' | h'
      · exact hc e (h' ▸ List.mem_cons_self _ _)
      · exact ih (fun e' he' => hc e' (List.mem_cons_of_mem _ he')) e h'

theorem storeOk_storePut (s : CacheStore) (name : String) (u : Url) (r : Response)
    (hs : storeOk s) (hr : r.ok = true) :
    storeOk (storePut s name u r) := by
  induction s with
  | nil =>
    intro g hg e he
    simp only [storePut, List.mem_singleton] at hg
    subst hg
    simpa using entriesOk_cacheInsert [] u r (by simp) hr e (by simpa [cacheInsert] using he)
  | cons g0 rest ih =>
    obtain ⟨n, c⟩ := g0
    have hc : ∀ e ∈ c, (e.2).ok = true := hs (n, c) (List.mem_cons_self _ _)
    have hrest : storeOk rest := fun g hg => hs g (List.mem_cons_of_mem _ hg)
    by_cases hn : n = name
    · intro g hg e he
      simp only [storePut, if_pos hn] at hg
      rcases List.mem_cons.mp hg with h' | h'
      · subst h'
        exact entriesOk_cacheInsert c u r hc hr e he
      · exact hrest g h' e he
    · intro g hg e he
      simp only [storePut, if_neg hn] at hg
      rcases List.mem_cons.mp hg with h' | h'
      · subst h'
        exact hc e he
      · exact ih hrest g h' e he

theorem genLookup_activate (s : CacheStore) (u : Url) :
    genLookup (activate s) CACHE_NAME u = genLookup s CACHE_NAME u := by
  induction s with
  | nil => simp [activate, genLookup]
  | cons g rest ih =>
    obtain ⟨n, c⟩ := g
    by_cases hn : n = CACHE_NAME
    · simp [activate, List.filter, hn, genLookup]
    · have : (n == CACHE_NAME) = false := by simpa using hn
      simp only [activate, List.filter, this, genLookup, if_neg hn]
      simpa [activate] using ih

theorem activate_names (store : CacheStore) :
    ∀ g ∈ activate store, g.1 = CACHE_NAME := by
  intro g hg
  have := (List.mem_filter.mp hg).2
  simpa using this

theorem cacheFirst_storeOk (net : Net) (store : CacheStore) (req : Request)
    (h : storeOk store) : storeOk (cacheFirst net store req).store := by
  cases hm : storeMatch store req.url with
  | some c => simpa [cacheFirst, hm] using h
  | none =>
    cases hn : net req with
    | some r =>
      cases hok : r.ok with
      | true =>
        simpa [cacheFirst, hm, hn, hok] using
          storeOk_storePut store CACHE_NAME req.url r h hok
      | false => simpa [cacheFirst, hm, hn, hok] using h
    | none => simpa [cacheFirst, hm, hn] using h

theorem networkFirst_storeOk (net : Net) (store : CacheStore) (req : Request)
    (h : storeOk store) : storeOk (networkFirst net store req).store := by
  cases hn : net req with
  | some r =>
    cases hok : r.ok with
    | true =>
      simpa [networkFirst, hn, hok] using
        storeOk_storePut store CACHE_NAME req.url r h hok
    | false => simpa [networkFirst, hn, hok] using h
  | none =>
    cases hm : storeMatch store req.url with
    | some c => simpa [networkFirst, hn, hm] using h
    | none => simpa [networkFirst, hn, hm] using h

theorem fetchAll_entries_ok (net : Net) (origin : String) (ps : List String)
    (es : List (String × Response)) (h : fetchAll net origin ps = some es) :
    ∀ e ∈ es, (e.2).ok = true := by
  induction ps generalizing es with
  | nil =>
    simp only [fetchAll, Option.some.injEq] at h
    subst h
    simp
  | cons p ps ih =>
    simp only [fetchAll] at h
    cases hn : net (precacheReq origin p) with
    | none => simp [hn] at h
    | some r =>
      simp only [hn] at h
      cases hok : r.ok with
      | false => simp [hok] at h
      | true =>
        rw [if_pos hok] at h
        obtain ⟨es', hf, rfl⟩ := Option.map_eq_some'.mp h
        intro e he
        rcases List.mem_cons.mp he with h' | h'
        · simpa [h'] using hok
        · exact ih es' hf e h'

theorem foldPut_storeOk (es : List (String × Response)) (s : CacheStore) (origin : String)
    (hs : storeOk s) (hes : ∀ e ∈ es, (e.2).ok = true) :
    storeOk (es.foldl
      (fun s pr => storePut s CACHE_NAME { hostname := origin, pathname := pr.1 } pr.2) s) := by
  induction es generalizing s with
  | nil => simpa using hs
  | cons e rest ih =>
    simp only [List.foldl_cons]
    exact ih _
      (storeOk_storePut s CACHE_NAME _ e.2 hs (hes e (List.mem_cons_self _ _)))
      (fun e' he' => hes e' (List.mem_cons_of_mem _ he'))

theorem fetchAll_total (net : Net) (origin : String) (ps : List String)
    (h : ∀ p ∈ ps, ∃ r, net (precacheReq origin p) = some r ∧ r.ok = true) :
    ∃ es, fetchAll net origin ps = some es ∧ es.map Prod.fst = ps := by
  induction ps with
  | nil => exact ⟨[], rfl, rfl⟩
  | cons p ps ih =>
    obtain ⟨r, hr, hok⟩ := h p (List.mem_cons_self _ _)
    obtain ⟨es, hes, hmap⟩ := ih (fun q hq => h q (List.mem_cons_of_mem _ hq))
    refine ⟨(p, r) :: es, ?_, by simp [hmap]⟩
    simp [fetchAll, hr, hok, hes]

theorem foldPut_mem (es : List (String × Response)) (s : CacheStore) (origin p : String)
    (h : p ∈ es.map Prod.fst ∨
      (genLookup s CACHE_NAME { hostname := origin, pathname := p }).isSome = true) :
    (genLookup
      (es.foldl
        (fun s pr => storePut s CACHE_NAME { hostname := origin, pathname := pr.1 } pr.2) s)
      CACHE_NAME { hostname := origin, pathname := p }).isSome = true := by
  induction es generalizing s with
  | nil =>
    rcases h with h | h
    · simp at h
    · simpa using h
  | cons e rest ih =>
    simp only [List.foldl_cons]
    rcases h with h | h
    · simp only [List.map_cons] at h
      rcases List.mem_cons.mp h with h' | h'
      · apply ih
        right
        rw [h', genLookup_storePut_self]
        rfl
      · exact ih _ (Or.inl h')
    · exact ih _ (Or.inr (genLookup_storePut_isSome _ _ _ _ _ h))

/-! ### Claim theorems -/

/-- C3: The Request Classifier is a pure function of (method, URL) returning
exactly one category, evaluated in order with first match winning: non-GET
method → non-cacheable; `/api/` path prefix → non-cacheable; hostname
matching the CDN allowlist → third-party-asset; `/static/` path prefix →
static-asset; otherwise navigational. `POST /api/orders` and
`GET /api/orders` classify as non-cacheable, `GET /static/app.js` as
static-asset, `GET /dashboard` as navigational. -/
theorem classifier_spec (req : Request) :
    (req.method ≠ "GET" → classify req = Category.nonCacheable) ∧
    (req.method = "GET" → strStarts req.url.pathname "/api/" = true →
      classify req = Category.nonCacheable) ∧
    (req.method = "GET" → strStarts req.url.pathname "/api/" = false →
      CDN_HOSTS.any (fun host => strIncludes req.url.hostname host) = true →
      classify req = Category.thirdPartyAsset) ∧
    (req.method = "GET" → strStarts req.url.pathname "/api/" = false →
      CDN_HOSTS.any (fun host => strIncludes req.url.hostname host) = false →
      strStarts req.url.pathname "/static/" = true →
      classify req = Category.staticAsset) ∧
    (req.method = "GET" → strStarts req.url.pathname "/api/" = false →
      CDN_HOSTS.any (fun host => strIncludes req.url.hostname host) = false →
      strStarts req.url.pathname "/static/" = false →
      classify req = Category.navigational) ∧
    classify ⟨"POST", ⟨"logisfit.local", "/api/orders"⟩⟩ = Category.nonCacheable ∧
    classify ⟨"GET", ⟨"logisfit.local", "/api/orders"⟩⟩ = Category.nonCacheable ∧
    classify ⟨"GET", ⟨"logisfit.local", "/static/app.js"⟩⟩ = Category.staticAsset ∧
    classify ⟨"GET", ⟨"logisfit.local", "/dashboard"⟩⟩ = Category.navigational := by
  refine ⟨?_, ?_, ?_, ?_, ?_, by decide, by decide, by decide, by decide⟩
  · intro h
    simp [classify, bne_iff_ne, h]
  · intro hm h
    simp [classify, bne_iff_ne, hm, h]
  · intro hm h1 h2
    simp [classify, bne_iff_ne, hm, h1, h2]
  · intro hm h1 h2 h3
    simp [classify, bne_iff_ne, hm, h1, h2, h3]
  · intro hm h1 h2 h3
    simp [classify, bne_iff_ne, hm, h1, h2, h3]

/-- Witness for C3 at a concrete request. -/
theorem classifier_spec_witness :
    strStarts "/dashboard" "/api/" = false ∧
    classify ⟨"GET", ⟨"logisfit.local", "/dashboard"⟩⟩ = Category.navigational :=
  ⟨by decide,
    (classifier_spec ⟨"GET", ⟨"logisfit.local", "/dashboard"⟩⟩).2.2.2.2.1
      rfl (by decide) (by decide) (by decide)⟩

/-- C7: A request with a non-GET method, or with a path under `/api/`, is
passed through untouched: the page sees exactly the network's outcome for
that one request, exactly one network call is made, and the cache store is
neither changed nor consulted (the delivered response does not depend on the
store's contents). -/
theorem passthrough_spec (net : Net) (store : CacheStore) (req : Request)
    (h : req.method ≠ "GET" ∨ strStarts req.url.pathname "/api/" = true) :
    (handle net store req).response = net req ∧
    (handle net store req).store = store ∧
    (handle net store req).netCalls = [req] := by
  have hc : classify req = Category.nonCacheable := by
    rcases h with h | h
    · simp [classify, bne_iff_ne, h]
    · by_cases hm : req.method = "GET" <;>
        simp [classify, bne_iff_ne, hm, h]
  simp [handle, hc, passThrough]

/-- Witness for C7: a POST request is forwarded verbatim and does not touch a
populated store. -/
theorem passthrough_spec_witness :
    (handle (fun _ => some ⟨201, "created", []⟩)
        [(CACHE_NAME, [(⟨"logisfit.local", "/static/app.js"⟩, ⟨200, "js", []⟩)])]
        ⟨"POST", ⟨"logisfit.local", "/api/orders"⟩⟩).response = some ⟨201, "created", []⟩ ∧
    (handle (fun _ => some ⟨201, "created", []⟩)
        [(CACHE_NAME, [(⟨"logisfit.local", "/static/app.js"⟩, ⟨200, "js", []⟩)])]
        ⟨"POST", ⟨"logisfit.local", "/api/orders"⟩⟩).store =
      [(CACHE_NAME, [(⟨"logisfit.local", "/static/app.js"⟩, ⟨200, "js", []⟩)])] := by
  have h := passthrough_spec (fun _ => some ⟨201, "created", []⟩)
    [(CACHE_NAME, [(⟨"logisfit.local", "/static/app.js"⟩, ⟨200, "js", []⟩)])]
    ⟨"POST", ⟨"logisfit.local", "/api/orders"⟩⟩ (Or.inl (by decide))
  exact ⟨h.1, h.2.1⟩

/-- C8: The Offline Responder's page is a fixed, self-contained HTML document
with charset and viewport metadata, an offline message and a reload control,
delivered with a success status and an HTML content type; and the
Network-First handler returns exactly this constant — independent of the
network oracle and the cache store — whenever the fetch rejects and no cache
entry exists. -/
theorem offlineResponder_spec :
    offlineResponse.ok = true ∧
    offlineResponse.status = 200 ∧
    offlineResponse.headers = [("Content-Type", "text/html; charset=UTF-8")] ∧
    strIncludes offlineResponse.body "<meta charset=\"UTF-8\">" = true ∧
    strIncludes offlineResponse.body "name=\"viewport\"" = true ∧
    strIncludes offlineResponse.body "오프라인 상태입니다" = true ∧
    strIncludes offlineResponse.body "location.reload()" = true ∧
    (∀ net store req, classify req = Category.navigational → net req = none →
      storeMatch store req.url = none →
      (handle net store req).response = some offlineResponse) := by
  refine ⟨by decide, by decide, by decide, by decide, by decide, by decide, by decide, ?_⟩
  intro net store req hc hn hs
  simp [handle, hc, networkFirst, hn, hs]

/-- Witness for C8: offline navigation with an empty store yields the
synthesized page. -/
theorem offlineResponder_spec_witness :
    (handle (fun _ => none) [] ⟨"GET", ⟨"logisfit.local", "/dashboard"⟩⟩).response =
      some offlineResponse :=
  offlineResponder_spec.2.2.2.2.2.2.2 (fun _ => none) []
    ⟨"GET", ⟨"logisfit.local", "/dashboard"⟩⟩ (by decide) rfl rfl

/-- C10: A navigational fetch that resolves with a non-success status is
returned verbatim: the response is not stored, the store is unchanged, and
neither the cache fallback nor the offline page is consulted. -/
theorem networkFirst_nonOk_spec (net : Net) (store : CacheStore) (req : Request)
    (hc : classify req = Category.navigational) (r : Response)
    (hr : net req = some r) (hok : r.ok = false) :
    (handle net store req).response = some r ∧
    (handle net store req).store = store := by
  simp [handle, hc, networkFirst, hr, hok]

/-- Witness for C10: a 500 page response is delivered as-is and nothing is
cached. -/
theorem networkFirst_nonOk_spec_witness :
    (handle (fun _ => some ⟨500, "boom", []⟩) []
      ⟨"GET", ⟨"logisfit.local", "/dashboard"⟩⟩).response = some ⟨500, "boom", []⟩ ∧
    (handle (fun _ => some ⟨500, "boom", []⟩) []
      ⟨"GET", ⟨"logisfit.local", "/dashboard"⟩⟩).store = [] :=
  networkFirst_nonOk_spec (fun _ => some ⟨500, "boom", []⟩) []
    ⟨"GET", ⟨"logisfit.local", "/dashboard"⟩⟩ (by decide) ⟨500, "boom", []⟩ rfl (by decide)

/-- C9: an `addAll` rejection during install is caught and swallowed: the
install event still completes (resolves), leaving the store unchanged. -/
theorem install_swallows_failure (net : Net) (origin : String) (store : CacheStore)
    (h : addAll net origin = Except.error ()) :
    installEvent net origin store = Except.ok store := by
  simp [installEvent, installData, h]

/-- Witness for C9: with the network fully unreachable the install event
still resolves, with an unchanged store. -/
theorem install_swallows_failure_witness :
    addAll (fun _ => none) "logisfit.local" = Except.error () ∧
    installEvent (fun _ => none) "logisfit.local" [] = Except.ok [] :=
  ⟨rfl, install_swallows_failure (fun _ => none) "logisfit.local" [] rfl⟩

/-- C5 counterexample: under Cache-First, a cache miss whose live fetch
resolves with status 404 (a non-success status) is returned verbatim — it is
not replaced by the minimal 503 failure response, contrary to the claim's
non-success-status case. -/
theorem cacheFirst_failure_cex :
    (handle (fun _ => some ⟨404, "not found", []⟩) []
      ⟨"GET", ⟨"logisfit.local", "/static/app.js"⟩⟩).response =
        some ⟨404, "not found", []⟩ ∧
    ¬ ((handle (fun _ => some ⟨404, "not found", []⟩) []
      ⟨"GET", ⟨"logisfit.local", "/static/app.js"⟩⟩).response =
        some failureResponse) := by
  decide

/-- C5 amended: under Cache-First, for a request not found in the cache, a
fetch that rejects (network unreachable) yields the minimal synthetic
failure response — empty body, service-unavailable status 503 — and leaves
the store unchanged, never propagating the error; a fetch that resolves with
a non-success status is instead returned verbatim and not stored. -/
theorem cacheFirst_failure_spec (net : Net) (store : CacheStore) (req : Request)
    (hc : classify req = Category.staticAsset ∨ classify req = Category.thirdPartyAsset)
    (hm : storeMatch store req.url = none) :
    (net req = none →
      (handle net store req).response = some failureResponse ∧
      failureResponse.body = "" ∧ failureResponse.status = 503 ∧
      (handle net store req).store = store) ∧
    (∀ r, net req = some r → r.ok = false →
      (handle net store req).response = some r ∧
      (handle net store req).store = store) := by
  have hd : handle net store req = cacheFirst net store req := by
    rcases hc with hc | hc <;> simp [handle, hc]
  constructor
  · intro hn
    simp [hd, cacheFirst, hm, hn, failureResponse]
  · intro r hr hok
    simp [hd, cacheFirst, hm, hr, hok]

/-- Witness for amended C5: a static asset fetched while offline yields the
empty 503 response. -/
theorem cacheFirst_failure_spec_witness :
    (handle (fun _ => none) [] ⟨"GET", ⟨"logisfit.local", "/static/app.js"⟩⟩).response =
      some failureResponse :=
  ((cacheFirst_failure_spec (fun _ => none) []
      ⟨"GET", ⟨"logisfit.local", "/static/app.js"⟩⟩
      (Or.inl (by decide)) rfl).1 rfl).1

/-- C1: Network-First for navigational requests: when the live fetch
succeeds (resolves with a success status), the live response is returned and
a clone is stored in the active generation under the request key; when the
fetch rejects, the cached snapshot is returned when one exists, and the
Offline Responder's synthesized page otherwise. -/
theorem networkFirst_spec (net : Net) (store : CacheStore) (req : Request)
    (hc : classify req = Category.navigational) :
    (∀ r, net req = some r → r.ok = true →
      (handle net store req).response = some r ∧
      genLookup (handle net store req).store CACHE_NAME req.url = some r) ∧
    (∀ c, net req = none → storeMatch store req.url = some c →
      (handle net store req).response = some c) ∧
    (net req = none → storeMatch store req.url = none →
      (handle net store req).response = some offlineResponse) := by
  refine ⟨?_, ?_, ?_⟩
  · intro r hr hok
    simp [handle, hc, networkFirst, hr, hok, genLookup_storePut_self]
  · intro c hn hs
    simp [handle, hc, networkFirst, hn, hs]
  · intro hn hs
    simp [handle, hc, networkFirst, hn, hs]

/-- Witness for C1: a successful navigation returns the live page and leaves
a clone under the request key in the current generation. -/
theorem networkFirst_spec_witness :
    (handle (fun _ => some ⟨200, "page", []⟩) []
      ⟨"GET", ⟨"logisfit.local", "/dashboard"⟩⟩).response = some ⟨200, "page", []⟩ ∧
    genLookup (handle (fun _ => some ⟨200, "page", []⟩) []
      ⟨"GET", ⟨"logisfit.local", "/dashboard"⟩⟩).store CACHE_NAME
      ⟨"logisfit.local", "/dashboard"⟩ = some ⟨200, "page", []⟩ :=
  (networkFirst_spec (fun _ => some ⟨200, "page", []⟩) []
    ⟨"GET", ⟨"logisfit.local", "/dashboard"⟩⟩ (by decide)).1
    ⟨200, "page", []⟩ rfl (by decide)

/-- C2: Cache-First round-trip: a static or third-party asset whose key is
already cached is served as the stored snapshot, with no network call and no
store change; an uncached one whose fetch resolves with a success status is
returned live and stored so that every subsequent call for the same key —
under any network oracle — returns that snapshot with no network call and no
further store change. -/
theorem cacheFirst_roundTrip (net : Net) (store : CacheStore) (req : Request)
    (hc : classify req = Category.staticAsset ∨ classify req = Category.thirdPartyAsset) :
    (∀ c, storeMatch store req.url = some c →
      handle net store req = ⟨some c, store, []⟩) ∧
    (∀ r, storeMatch store req.url = none → net req = some r → r.ok = true →
      (handle net store req).response = some r ∧
      ∀ net2, handle net2 (handle net store req).store req =
        ⟨some r, (handle net store req).store, []⟩) := by
  have hd : ∀ (n : Net) (s : CacheStore), handle n s req = cacheFirst n s req := by
    intro n s
    rcases hc with hc | hc <;> simp [handle, hc]
  constructor
  · intro c hcs
    simp [hd, cacheFirst, hcs]
  · intro r hm hr hok
    have hstore : (handle net store req).store = storePut store CACHE_NAME req.url r := by
      simp [hd, cacheFirst, hm, hr, hok]
    have hresp : (handle net store req).response = some r := by
      simp [hd, cacheFirst, hm, hr, hok]
    refine ⟨hresp, ?_⟩
    intro net2
    generalize hg : (handle net store req).store = s'
    have hmatch : storeMatch s' req.url = some r := by
      rw [← hg, hstore]
      exact storeMatch_storePut_fresh store CACHE_NAME req.url r hm
    rw [hd net2 s']
    simp [cacheFirst, hmatch]

/-- Witness for C2: a cached static asset is served from the store with no
network call and no store change. -/
theorem cacheFirst_roundTrip_witness :
    handle (fun _ => none)
      [(CACHE_NAME, [(⟨"logisfit.local", "/static/app.js"⟩, ⟨200, "js", []⟩)])]
      ⟨"GET", ⟨"logisfit.local", "/static/app.js"⟩⟩ =
      ⟨some ⟨200, "js", []⟩,
        [(CACHE_NAME, [(⟨"logisfit.local", "/static/app.js"⟩, ⟨200, "js", []⟩)])], []⟩ :=
  (cacheFirst_roundTrip (fun _ => none)
    [(CACHE_NAME, [(⟨"logisfit.local", "/static/app.js"⟩, ⟨200, "js", []⟩)])]
    ⟨"GET", ⟨"logisfit.local", "/static/app.js"⟩⟩
    (Or.inl (by decide))).1 ⟨200, "js", []⟩ rfl

/-- C4: only responses with a successful status are ever stored: starting
from a store in which every snapshot is successful, fetch handling (any
strategy), install-time precaching and activation all preserve that
invariant. -/
theorem storeOk_invariant (net : Net) (store : CacheStore) (req : Request)
    (origin : String) (h : storeOk store) :
    storeOk (handle net store req).store ∧
    storeOk (installData net origin store) ∧
    storeOk (activate store) := by
  refine ⟨?_, ?_, fun g hg => h g (List.mem_filter.mp hg).1⟩
  · cases hcl : classify req with
    | nonCacheable => simpa [handle, hcl, passThrough] using h
    | thirdPartyAsset => simpa [handle, hcl] using cacheFirst_storeOk net store req h
    | staticAsset => simpa [handle, hcl] using cacheFirst_storeOk net store req h
    | navigational => simpa [handle, hcl] using networkFirst_storeOk net store req h
  · unfold installData addAll
    cases hf : fetchAll net origin PRECACHE_URLS with
    | none => simpa using h
    | some es =>
      simpa using foldPut_storeOk es store origin h
        (fetchAll_entries_ok net origin PRECACHE_URLS es hf)

/-- Witness for C4: handling a successful navigation from the empty store
leaves a store whose every snapshot is successful. -/
theorem storeOk_invariant_witness :
    storeOk ((handle (fun _ => some ⟨200, "page2", []⟩) []
      ⟨"GET", ⟨"logisfit.local", "/orders"⟩⟩).store) :=
  (storeOk_invariant (fun _ => some ⟨200, "page2", []⟩) []
    ⟨"GET", ⟨"logisfit.local", "/orders"⟩⟩ "logisfit.local" (by decide)).1

/-- C6 counterexample: with a network where `/` is fetchable (200) but the
other manifest entries are unreachable, install's `addAll` rejects as a
whole and stores nothing, so after activation the current generation does
not contain the fetchable entry `/` — contrary to the claim that every entry
fetchable at install time is present. -/
theorem lifecycle_cex :
    (fun r : Request => if r.url.pathname = "/" then some (⟨200, "shell", []⟩ : Response) else none)
        (precacheReq "logisfit.local" "/") = some ⟨200, "shell", []⟩ ∧
    (⟨200, "shell", []⟩ : Response).ok = true ∧
    genLookup
      (activate (installData
        (fun r : Request => if r.url.pathname = "/" then some ⟨200, "shell", []⟩ else none)
        "logisfit.local" []))
      CACHE_NAME ⟨"logisfit.local", "/"⟩ = none := by
  decide

/-- C6 amended: after activation every remaining generation carries the
current version tag; when every Precache Manifest entry was fetchable (with
a success status) at install time, the current generation contains every
manifest entry; and when `addAll` rejected (any single entry unreachable or
non-successful), the precache step stored nothing at all. -/
theorem lifecycle_spec (net : Net) (origin : String) (store : CacheStore) :
    (∀ g ∈ activate store, g.1 = CACHE_NAME) ∧
    ((∀ p ∈ PRECACHE_URLS, ∃ r, net (precacheReq origin p) = some r ∧ r.ok = true) →
      ∀ p ∈ PRECACHE_URLS,
        (genLookup (activate (installData net origin store)) CACHE_NAME
          ⟨origin, p⟩).isSome = true) ∧
    (addAll net origin = Except.error () → installData net origin store = store) := by
  refine ⟨activate_names store, ?_, ?_⟩
  · intro hall p hp
    obtain ⟨es, hes, hmap⟩ := fetchAll_total net origin PRECACHE_URLS hall
    rw [genLookup_activate]
    unfold installData addAll
    rw [hes]
    exact foldPut_mem es store origin p (Or.inl (hmap ▸ hp))
  · intro ha
    simp [installData, ha]

/-- Witness for amended C6: with every manifest entry fetchable, the root
document is present in the current generation after install and activate. -/
theorem lifecycle_spec_witness :
    (genLookup
      (activate (installData (fun _ => some ⟨200, "asset", []⟩) "logisfit.local" []))
      CACHE_NAME ⟨"logisfit.local", "/"⟩).isSome = true :=
  (lifecycle_spec (fun _ => some ⟨200, "asset", []⟩) "logisfit.local" []).2.1
    (fun _ _ => ⟨⟨200, "asset", []⟩, rfl, by decide⟩) "/" (by decide)

end SW
